import Mathlib

/-!
Verification of the rac-build orchestrator.

A shallow embedding of `tools/build/go/rac-build/main.go`, the Go
build-and-package orchestrator of the rac-clicker repository, together with
proofs of its specified properties.

Modelling conventions:
* Machine state (`Sys`) carries an association-list filesystem mapping path
  strings to files (byte content as `List Nat`, permission mode as `Nat`) and
  an event trace recording subprocess spawns and filesystem mutations.
* `stat` outcomes are a three-valued enumeration (`StatKind`): success,
  does-not-exist, other error (e.g. permission denied), mirroring what
  `os.Stat` can report to `fileExists`.
* Fallible I/O steps inside `performFileCopy` are driven by a failure oracle
  (`CopyStep → Bool`), so error-path claims quantify over which step fails.
* Paths used by the upward project-root walk are reversed component lists
  (`[]` is the filesystem root, whose parent is itself, exactly matching
  `filepath.Dir` at the root).
-/

namespace RacBuild

/-- Constant `cargoTomlFilename = "Cargo.toml"` from main.go. -/
def cargoTomlFilename : String := "Cargo.toml"

/-- Constant `releaseTargetDir = "target/release"` from main.go. -/
def releaseTargetDir : String := "target/release"

/-- Constant `tempFileSuffix = ".tmp"` from main.go. -/
def tempFileSuffix : String := ".tmp"

/-- The `package` section read from `Cargo.toml` (`PackageInfo` in Go). -/
structure PackageInfo where
  name : String
  version : String
deriving DecidableEq, Repr

/-- Type `BuildOptions`: the CLI flags captured at startup. -/
structure BuildOptions where
  verbose : Bool
  clean : Bool
  outputDir : String
  cargoPath : String
  dryRun : Bool
deriving DecidableEq, Repr

/-- A file on disk: its byte content and its permission mode. -/
structure File where
  content : List Nat
  mode : Nat
deriving DecidableEq, Repr

/-- The filesystem: an association list from path to file. -/
abbrev FS : Type := List (String × File)

/-- Look up the file stored at a path. -/
def FS.get : FS → String → Option File
  | [], _ => none
  | (q, f) :: rest, p => if q = p then some f else FS.get rest p

/-- Delete the entry at a path (no-op when absent). -/
def FS.del : FS → String → FS
  | [], _ => []
  | (q, f) :: rest, p => if q = p then FS.del rest p else (q, f) :: FS.del rest p

/-- Store a file at a path, replacing any previous entry. -/
def FS.set (fs : FS) (p : String) (f : File) : FS :=
  (p, f) :: fs.del p

/-- Observable side effects of a pipeline run: subprocess spawns, the working
directory change, and filesystem mutations (directory creation, file writes,
removals, renames, and writes to the orchestrator's standard error). -/
inductive Event where
  | spawn (bin : String) (args : List String)
  | chdir (dir : String)
  | mkdirAll (dir : String)
  | fsWrite (path : String)
  | fsRemove (path : String)
  | fsRename (src : String) (dst : String)
  | stderrWrite (s : String)
deriving DecidableEq, Repr

/-- Machine state threaded through the pipeline: the filesystem plus the
trace of observable events so far. -/
structure Sys where
  fs : FS
  events : List Event
deriving DecidableEq, Repr

/-- Record an event without touching the filesystem. -/
def Sys.log (s : Sys) (e : Event) : Sys :=
  { s with events := s.events ++ [e] }

/-- Write a file (create or overwrite), recording the mutation. -/
def Sys.writeFile (s : Sys) (p : String) (f : File) : Sys :=
  { fs := s.fs.set p f, events := s.events ++ [Event.fsWrite p] }

/-- Remove a file, recording the mutation. -/
def Sys.removeFile (s : Sys) (p : String) : Sys :=
  { fs := s.fs.del p, events := s.events ++ [Event.fsRemove p] }

/-- Rename `src` onto `dst` (atomic replacement of `dst`), recording the
mutation. -/
def Sys.renameFile (s : Sys) (src dst : String) : Sys :=
  match s.fs.get src with
  | none => { s with events := s.events ++ [Event.fsRename src dst] }
  | some f =>
    { fs := (s.fs.del src).set dst f
      events := s.events ++ [Event.fsRename src dst] }

/-- What `os.Stat` reports for a path: success, not-exist, or another error
(permission denied, I/O error, ...). -/
inductive StatKind where
  | ok
  | notExist
  | otherError
deriving DecidableEq, Repr

/-- Function `fileExists` from main.go:
```
_, err := os.Stat(path)
return err == nil || !errors.Is(err, os.ErrNotExist)
```
-/
def fileExists (stat : String → StatKind) (path : String) : Bool :=
  match stat path with
  | .ok => true
  | .notExist => false
  | .otherError => true

/-- Render a reversed component list as an absolute path string:
`[]` is `/`, `["b", "a"]` is `/a/b`. -/
def pathStr : List String → String
  | [] => "/"
  | [c] => "/" ++ c
  | c :: rest => pathStr rest ++ "/" ++ c

/-- Model of `filepath.Join(dir, file)` for a directory given as a reversed
component list: the file becomes the innermost component. -/
def joinDir (dir : List String) (file : String) : String :=
  pathStr (file :: dir)

/-- Function `getPlatformExecutableExtension`, parameterised by `runtime.GOOS`. -/
def getPlatformExecutableExtension (goos : String) : String :=
  if goos = "windows" then ".exe" else ""

/-- Function `locateProjectRoot` from main.go, starting from the working directory
(`cwd` is passed in as a reversed component list): test
`filepath.Join(currentDir, cargoTomlFilename)` with `fileExists`; on failure
move to `filepath.Dir(currentDir)` and repeat; stop with an error when the
parent equals the current directory (at `[]`, the root, whose parent is
itself).
-/
def locateProjectRoot (stat : String → StatKind) :
    List String → Option (List String)
  | [] =>
    if fileExists stat (joinDir [] cargoTomlFilename) then some [] else none
  | d :: rest =>
    if fileExists stat (joinDir (d :: rest) cargoTomlFilename) then
      some (d :: rest)
    else
      locateProjectRoot stat rest

/-- A directory passes the manifest test of the walk. -/
def hasManifest (stat : String → StatKind) (dir : List String) : Bool :=
  fileExists stat (joinDir dir cargoTomlFilename)

/-- Function `locateBuiltBinary` from main.go:
`filepath.Join(projectDir, "target/release", name + ext)` must exist.
-/
def locateBuiltBinary (stat : String → StatKind) (goos : String)
    (projectDir : List String) (name : String) : Except String String :=
  let binaryName := name ++ getPlatformExecutableExtension goos
  let binaryPath := joinDir projectDir (releaseTargetDir ++ "/" ++ binaryName)
  if fileExists stat binaryPath then
    .ok binaryPath
  else
    .error ("binary not found at expected location: " ++ binaryPath)

/-- The forbidden-character set of `validateVersionString`:
`` `/\:"<>|?*` + "\x00" ``. -/
def forbiddenChars : List Char :=
  ['/', '\\', ':', '"', '<', '>', '|', '?', '*', '\x00']

/-- Function `validateVersionString` from main.go: empty check, then
`strings.ContainsAny(version, forbiddenChars)` (some rune of the version is a
member of the forbidden set), then a rune loop rejecting code points below 32
or equal to 127. -/
def validateVersionString (version : String) : Except String Unit :=
  if version = "" then
    .error "version string is empty"
  else if version.data.any (fun c => decide (c ∈ forbiddenChars)) then
    .error ("version contains forbidden characters: " ++ version)
  else if version.data.any (fun c => c.toNat < 32 || c.toNat == 127) then
    .error ("version contains control character: " ++ version)
  else
    .ok ()

/-- The fallible I/O steps of `performFileCopy`, in program order. The
open-source step is not listed: it fails exactly when the source file is
absent, which the filesystem state already determines. -/
inductive CopyStep where
  | createTemp
  | copyData
  | syncFile
  | closeFile
  | renameFile
deriving DecidableEq, Repr

/-- Function `performFileCopy` from main.go, with a failure oracle `fail` selecting which
I/O step errors.

`os.OpenFile(tempPath, O_CREATE|O_WRONLY|O_TRUNC, 0600)` truncates an
existing file keeping its mode and otherwise creates the file with mode
`0600`. The deferred cleanup removes the temporary file on every path on
which `operationSuccessful` is still false (the deferred close of the two
files changes no filesystem state). `os.Rename(tempPath, destination)`
atomically replaces the destination.
-/
def performFileCopy (fail : CopyStep → Bool) (source destination : String)
    (sys : Sys) : Except String Unit × Sys :=
  match sys.fs.get source with
  | none => (.error "open source", sys)
  | some srcFile =>
    let tempPath := destination ++ tempFileSuffix
    if fail .createTemp then
      (.error "create temp file", sys)
    else
      let tempMode :=
        match sys.fs.get tempPath with
        | some old => old.mode
        | none => 0o600
      let sys1 := sys.writeFile tempPath ⟨[], tempMode⟩
      if fail .copyData then
        (.error "copy data", sys1.removeFile tempPath)
      else
        let sys2 := sys1.writeFile tempPath ⟨srcFile.content, tempMode⟩
        if fail .syncFile then
          (.error "fsync file", sys2.removeFile tempPath)
        else if fail .closeFile then
          (.error "close temp file", sys2.removeFile tempPath)
        else if fail .renameFile then
          (.error "atomic rename", sys2.removeFile tempPath)
        else
          (.ok (), sys2.renameFile tempPath destination)

/-- Result of waiting on a spawned subprocess: whether it exited with code
zero, and the combined bytes it wrote to its standard output and standard
error (the two streams as captured into one buffer in quiet mode). -/
structure SubprocResult where
  exitOk : Bool
  combinedOutput : String
deriving DecidableEq, Repr

/-- Outcomes of the external world consulted by the pipeline: the platform,
the working directory, `os.Stat` answers, the parsed `Cargo.toml`
(`os.ReadFile` plus `toml.Unmarshal`), `exec.LookPath("cargo")`,
`filepath.Abs` (total here: it fails only when the working directory is
unavailable), the output of `cargo --version`, the result of running a cargo
subcommand, and the failure oracle for the publish copy steps. -/
structure Env where
  goos : String
  cwd : List String
  stat : String → StatKind
  readConfig : String → Except String PackageInfo
  lookPath : Except String String
  abs : String → String
  cargoVersionOut : String → Except String String
  cargoRun : List String → SubprocResult
  copyFail : CopyStep → Bool

/-- Method `(*CargoConfig).Validate` from main.go: name then version must be
non-empty. -/
def configValidate (c : PackageInfo) : Except String Unit :=
  if c.name = "" then
    .error "package.name is empty in Cargo.toml"
  else if c.version = "" then
    .error "package.version is empty in Cargo.toml"
  else
    .ok ()

/-- Function `resolveCargoBinary` from main.go: an explicit override is made
absolute without checking existence, otherwise `cargo` is searched on PATH. -/
def resolveCargoBinary (env : Env) (explicit : String) : Except String String :=
  if explicit ≠ "" then .ok (env.abs explicit) else env.lookPath

/-- Function `validateCargoBinary` from main.go: run `cargo --version` and
require the output to start with `"cargo "`. The spawn is recorded even when
execution fails (the process was attempted). -/
def validateCargoBinary (env : Env) (cargo : String) (sys : Sys) :
    Except String Unit × Sys :=
  let sys := sys.log (.spawn cargo ["--version"])
  match env.cargoVersionOut cargo with
  | .error _ => (.error "unable to execute cargo --version", sys)
  | .ok out =>
    if out.startsWith "cargo " then (.ok (), sys)
    else (.error "invalid cargo binary", sys)

/-- Function `runCargoCommand` from main.go. Verbose mode forwards the child's
streams live (the child writes them, so no `stderrWrite` event of this
process is recorded); quiet mode captures both streams into one buffer and,
on failure, writes the captured output to standard error once before
propagating the error. -/
def runCargoCommand (env : Env) (opts : BuildOptions) (cargoBin : String)
    (args : List String) (sys : Sys) : Except String Unit × Sys :=
  let res := env.cargoRun args
  let sys := sys.log (.spawn cargoBin args)
  if opts.verbose then
    if res.exitOk then (.ok (), sys)
    else (.error "cargo command failed", sys)
  else
    if res.exitOk then (.ok (), sys)
    else
      (.error "cargo command failed", sys.log (.stderrWrite res.combinedOutput))

/-- Function `executeCargoClean` from main.go: skipped entirely under
dry-run. -/
def executeCargoClean (env : Env) (opts : BuildOptions) (cargoBin : String)
    (sys : Sys) : Except String Unit × Sys :=
  if opts.dryRun then (.ok (), sys)
  else runCargoCommand env opts cargoBin ["clean"] sys

/-- Function `executeCargoBuild` from main.go: skipped entirely under
dry-run. -/
def executeCargoBuild (env : Env) (opts : BuildOptions) (cargoBin : String)
    (sys : Sys) : Except String Unit × Sys :=
  if opts.dryRun then (.ok (), sys)
  else runCargoCommand env opts cargoBin ["build", "--release"]  sys

/-- The destination filename `fmt.Sprintf("%s-v%s%s", name, version, ext)`. -/
def destFilename (goos name version : String) : String :=
  name ++ "-v" ++ version ++ getPlatformExecutableExtension goos

/-- The full destination path: `filepath.Join(absOutputDir, destFilename)`
with the output directory defaulting to `target/release` and resolved through
`filepath.Abs`. Join is modelled as concatenation with the separator. -/
def destinationPath (env : Env) (opts : BuildOptions) (name version : String) :
    String :=
  env.abs (if opts.outputDir = "" then releaseTargetDir else opts.outputDir)
    ++ "/" ++ destFilename env.goos name version

/-- Function `copyBinaryToDestination` from main.go: pick the output
directory, make it absolute, create it unless dry-run, compute the
destination path, stop before any copy when dry-run, otherwise copy via
`performFileCopy` and re-stat the destination. -/
def copyBinaryToDestination (env : Env) (opts : BuildOptions)
    (name version : String) (sourceBinary : String) (sys : Sys) :
    Except String Unit × Sys :=
  let absOutputDir :=
    env.abs (if opts.outputDir = "" then releaseTargetDir else opts.outputDir)
  let sys1 := if opts.dryRun then sys else sys.log (.mkdirAll absOutputDir)
  let destPath := destinationPath env opts name version
  if opts.dryRun then
    (.ok (), sys1)
  else
    match performFileCopy env.copyFail sourceBinary destPath sys1 with
    | (.error e, sys2) => (.error ("copy binary: " ++ e), sys2)
    | (.ok _, sys2) =>
      match sys2.fs.get destPath with
      | none => (.error "stat destination file", sys2)
      | some _ => (.ok (), sys2)

/-- Function `runBuildPipeline` from main.go: change into the project
directory (a process-global state change, recorded as an event), optionally
clean, build, locate the produced binary, publish it. -/
def runBuildPipeline (env : Env) (opts : BuildOptions) (config : PackageInfo)
    (projectDir : List String) (cargoBin : String) (sys : Sys) :
    Except String Unit × Sys :=
  let sys := sys.log (.chdir (pathStr projectDir))
  let step1 :=
    if opts.clean then executeCargoClean env opts cargoBin sys
    else (.ok (), sys)
  match step1 with
  | (.error e, sysa) => (.error ("cargo clean: " ++ e), sysa)
  | (.ok _, sysa) =>
    match executeCargoBuild env opts cargoBin sysa with
    | (.error e, sysb) => (.error ("cargo build: " ++ e), sysb)
    | (.ok _, sysb) =>
      match locateBuiltBinary env.stat env.goos projectDir config.name with
      | .error e => (.error ("binary location: " ++ e), sysb)
      | .ok builtBinary =>
        match copyBinaryToDestination env opts config.name config.version
            builtBinary sysb with
        | (.error e, sysc) => (.error ("binary copy: " ++ e), sysc)
        | (.ok _, sysc) => (.ok (), sysc)

/-- Function `execute` from main.go: discovery, config load, validation,
version validation, cargo resolution, cargo validation, then the build
pipeline; each failure wraps the stage name around the error. -/
def execute (env : Env) (opts : BuildOptions) (sys : Sys) :
    Except String Unit × Sys :=
  match locateProjectRoot env.stat env.cwd with
  | none => (.error "project discovery: cargo.toml not found", sys)
  | some projectDir =>
    match env.readConfig (joinDir projectDir cargoTomlFilename) with
    | .error e => (.error ("config loading: " ++ e), sys)
    | .ok config =>
      match configValidate config with
      | .error e => (.error ("config validation: " ++ e), sys)
      | .ok _ =>
        match validateVersionString config.version with
        | .error e => (.error ("version validation: " ++ e), sys)
        | .ok _ =>
          match resolveCargoBinary env opts.cargoPath with
          | .error e => (.error ("cargo resolution: " ++ e), sys)
          | .ok cargoBin =>
            match validateCargoBinary env cargoBin sys with
            | (.error e, sysa) => (.error ("cargo validation: " ++ e), sysa)
            | (.ok _, sysa) =>
              match runBuildPipeline env opts config projectDir cargoBin sysa with
              | (.error e, sysb) => (.error ("build pipeline: " ++ e), sysb)
              | (.ok _, sysb) => (.ok (), sysb)

/-- Does an event create, modify, or delete a file or directory? -/
def Event.mutatesFs : Event → Bool
  | .mkdirAll _ => true
  | .fsWrite _ => true
  | .fsRemove _ => true
  | .fsRename _ _ => true
  | _ => false

/-- Is an event the spawn of the clean or of the build subcommand? -/
def Event.isCleanOrBuildSpawn : Event → Bool
  | .spawn _ args =>
    decide (args = ["clean"]) || decide (args = ["build", "--release"])
  | _ => false

/-- Is an event a write to this process's standard error? -/
def Event.isStderrWrite : Event → Bool
  | .stderrWrite _ => true
  | _ => false

/-- Is a pipeline result an error? -/
def errResult : Except String Unit → Bool
  | .error _ => true
  | .ok _ => false

/-- Concrete stat oracle: only `/proj/Cargo.toml` exists. -/
def statOnlyProj : String → StatKind := fun p =>
  if p = "/proj/Cargo.toml" then .ok else .notExist

/-- Concrete environment whose manifest carries an unsafe version string. -/
def envProj : Env where
  goos := "linux"
  cwd := ["proj"]
  stat := statOnlyProj
  readConfig := fun _ => .ok ⟨"clicker", "1.2.3/evil"⟩
  lookPath := .ok "/usr/bin/cargo"
  abs := fun s => s
  cargoVersionOut := fun _ => .ok "cargo 1.75.0"
  cargoRun := fun _ => ⟨true, ""⟩
  copyFail := fun _ => false

/-- Variant of `envProj` with a safe version string. -/
def envDry : Env :=
  { envProj with readConfig := fun _ => .ok ⟨"clicker", "1.2.3"⟩ }

/-- Variant of `envProj` whose manifest version carries a control character
(code point 1) instead of a reserved character. -/
def envCtl : Env :=
  { envProj with readConfig := fun _ => .ok ⟨"clicker", "1.2\x01.3"⟩ }

/-- Quiet-mode environment whose cargo subcommand fails. -/
def envQuietFail : Env :=
  { envProj with cargoRun := fun _ => ⟨false, "build failed output"⟩ }

/-- Quiet-mode environment whose cargo subcommand succeeds. -/
def envQuietOk : Env :=
  { envProj with cargoRun := fun _ => ⟨true, "compiling"⟩ }

/-- Default CLI options: quiet, no clean, default output, no dry-run. -/
def optsDefault : BuildOptions := ⟨false, false, "", "", false⟩

/-- Options with dry-run (and clean, to exercise the skipped clean step). -/
def optsDry : BuildOptions := ⟨false, true, "", "", true⟩

@[simp] theorem FS.get_del_self (fs : FS) (p : String) :
    (fs.del p).get p = none := by
  induction fs with
  | nil => rfl
  | cons hd tl ih =>
    obtain ⟨q, f⟩ := hd
    by_cases hq : q = p <;> simp [FS.del, FS.get, hq, ih]

theorem FS.get_del_ne (fs : FS) {p q : String} (h : q ≠ p) :
    (fs.del p).get q = fs.get q := by
  induction fs with
  | nil => rfl
  | cons hd tl ih =>
    obtain ⟨r, f⟩ := hd
    by_cases hr : r = p
    · subst hr
      simp [FS.del, FS.get, Ne.symm h, ih]
    · by_cases hrq : r = q <;> simp [FS.del, FS.get, hr, hrq, h, ih]

@[simp] theorem FS.get_set_self (fs : FS) (p : String) (f : File) :
    (fs.set p f).get p = some f := by
  simp [FS.set, FS.get]

theorem FS.get_set_ne (fs : FS) {p q : String} (f : File) (h : q ≠ p) :
    (fs.set p f).get q = fs.get q := by
  simp [FS.set, FS.get, Ne.symm h, FS.get_del_ne fs h]

/-- C4: `validateVersionString` fails exactly when the version is empty,
contains a reserved filesystem character (`/ \ : " < > | ? *` or NUL), or
contains a character with code point below 32 or equal to 127; it succeeds on
every other string. -/
theorem validateVersionString_ok_iff (version : String) :
    validateVersionString version = .ok () ↔
      (version ≠ "" ∧
        ∀ c ∈ version.data,
          c ∉ forbiddenChars ∧ 32 ≤ c.toNat ∧ c.toNat ≠ 127) := by
  unfold validateVersionString
  by_cases h0 : version = ""
  · rw [if_pos h0]
    simp [h0]
  · rw [if_neg h0]
    simp only [ne_eq, h0, not_false_eq_true, true_and]
    by_cases h1 : version.data.any (fun c => decide (c ∈ forbiddenChars)) = true
    · rw [if_pos h1]
      simp only [List.any_eq_true, decide_eq_true_iff] at h1
      obtain ⟨c, hc, hmem⟩ := h1
      constructor
      · intro h; cases h
      · intro h; exact absurd hmem (h c hc).1
    · rw [if_neg h1]
      by_cases h2 : version.data.any (fun c => c.toNat < 32 || c.toNat == 127) = true
      · rw [if_pos h2]
        simp only [List.any_eq_true, Bool.or_eq_true, decide_eq_true_iff,
          beq_iff_eq] at h2
        obtain ⟨c, hc, hbad⟩ := h2
        constructor
        · intro h; cases h
        · intro h
          have h32 := (h c hc).2.1
          have h127 := (h c hc).2.2
          rcases hbad with hlt | heq
          · exact absurd h32 (by omega)
          · exact absurd heq h127
      · rw [if_neg h2]
        simp only [List.any_eq_true, not_exists, not_and,
          decide_eq_true_iff] at h1
        simp only [List.any_eq_true, not_exists, not_and, Bool.or_eq_true,
          decide_eq_true_iff, beq_iff_eq, not_or] at h2
        constructor
        · intro _ c hc
          exact ⟨h1 c hc, by have := (h2 c hc).1; omega, (h2 c hc).2⟩
        · intro _
          rfl

theorem locateProjectRoot_eq_find_aux (stat : String → StatKind)
    (startDir : List String) :
    locateProjectRoot stat startDir
      = startDir.tails.find? (fun d => hasManifest stat d) := by
  induction startDir with
  | nil =>
    simp only [locateProjectRoot, List.tails, hasManifest]
    cases hm : fileExists stat (joinDir [] cargoTomlFilename) <;>
      simp [List.find?, hm]
  | cons d rest ih =>
    simp only [locateProjectRoot, List.tails, hasManifest]
    cases hm : fileExists stat (joinDir (d :: rest) cargoTomlFilename) <;>
      simp [List.find?, hm, ih, hasManifest]

/-- C3: project-root discovery tests the starting directory first, then
each parent in turn (`tails` of the reversed component list is exactly the
ancestor chain, ending at the root `[]`), returning the nearest ancestor —
the start included — whose directory contains `Cargo.toml`; it returns the
not-found error exactly when no directory on the chain up to and including
the filesystem root contains the manifest. -/
theorem locateProjectRoot_spec (stat : String → StatKind)
    (startDir : List String) :
    locateProjectRoot stat startDir
        = startDir.tails.find? (fun d => hasManifest stat d) ∧
      (locateProjectRoot stat startDir = none ↔
        ∀ d ∈ startDir.tails, hasManifest stat d = false) := by
  refine ⟨locateProjectRoot_eq_find_aux stat startDir, ?_⟩
  rw [locateProjectRoot_eq_find_aux stat startDir, List.find?_eq_none]
  constructor
  · intro h d hd
    exact Bool.not_eq_true _ ▸ h d hd
  · intro h d hd
    simp [h d hd]

/-- C9: `fileExists` reports `true` whenever `stat` fails with an error
other than not-exist; consequently project-root discovery accepts a directory
whose manifest stat fails that way as the project root, and binary location
accepts such a path as the found artifact. -/
theorem fileExists_statError_spec (stat : String → StatKind) (p : String)
    (startDir projectDir : List String) (goos name : String) :
    (stat p = .otherError → fileExists stat p = true) ∧
      (stat (joinDir startDir cargoTomlFilename) = .otherError →
        locateProjectRoot stat startDir = some startDir) ∧
      (stat (joinDir projectDir
            (releaseTargetDir ++ "/" ++ (name ++ getPlatformExecutableExtension goos)))
          = .otherError →
        locateBuiltBinary stat goos projectDir name
          = .ok (joinDir projectDir
              (releaseTargetDir ++ "/" ++ (name ++ getPlatformExecutableExtension goos)))) := by
  refine ⟨?_, ?_, ?_⟩
  · intro h
    simp [fileExists, h]
  · intro h
    have hfe : fileExists stat (joinDir startDir cargoTomlFilename) = true := by
      simp [fileExists, h]
    cases startDir with
    | nil => simp [locateProjectRoot, hfe]
    | cons d rest => simp [locateProjectRoot, hfe]
  · intro h
    have hfe : fileExists stat (joinDir projectDir
        (releaseTargetDir ++ "/" ++ (name ++ getPlatformExecutableExtension goos))) = true := by
      simp [fileExists, h]
    simp [locateBuiltBinary, hfe]

/-- Witness for C9 at a `stat` that always reports a non-not-exist error. -/
theorem fileExists_statError_spec_witness :
    fileExists (fun _ => StatKind.otherError) "/x" = true ∧
      locateProjectRoot (fun _ => StatKind.otherError) ["c", "b", "a"]
        = some ["c", "b", "a"] ∧
      locateBuiltBinary (fun _ => StatKind.otherError) "linux" ["a"] "clicker"
        = .ok (joinDir ["a"]
            (releaseTargetDir ++ "/" ++ ("clicker" ++ getPlatformExecutableExtension "linux"))) := by
  obtain ⟨h1, h2, h3⟩ := fileExists_statError_spec (fun _ => StatKind.otherError)
    "/x" ["c", "b", "a"] ["a"] "linux" "clicker"
  exact ⟨h1 rfl, h2 rfl, h3 rfl⟩

theorem append_tempSuffix_ne (s : String) : s ++ tempFileSuffix ≠ s := by
  intro h
  have hlen := congrArg String.length h
  rw [String.length_append] at hlen
  have h4 : tempFileSuffix.length = 4 := rfl
  omega

/-- C1: whenever one of the copy, sync, close, or rename steps of
`performFileCopy` fails (all of which happen after the temporary file has
been created), the call returns an error, the temporary file is gone from the
filesystem, and the destination path's contents are exactly what they were
before the call — no partial artifact remains at either path. -/
theorem performFileCopy_failure_cleanup (fail : CopyStep → Bool)
    (source destination : String) (sys : Sys) (srcFile : File)
    (hsrc : sys.fs.get source = some srcFile)
    (hcreate : fail .createTemp = false)
    (hfail : fail .copyData = true ∨ fail .syncFile = true ∨
      fail .closeFile = true ∨ fail .renameFile = true) :
    errResult (performFileCopy fail source destination sys).1 = true ∧
      (performFileCopy fail source destination sys).2.fs.get
          (destination ++ tempFileSuffix) = none ∧
      (performFileCopy fail source destination sys).2.fs.get destination
        = sys.fs.get destination := by
  have hne : destination ≠ destination ++ tempFileSuffix :=
    Ne.symm (append_tempSuffix_ne destination)
  by_cases hcp : fail .copyData = true
  · refine ⟨?_, ?_, ?_⟩ <;>
      simp [performFileCopy, errResult, hsrc, hcreate, hcp, Sys.writeFile,
        Sys.removeFile, FS.get_del_self, FS.get_del_ne, FS.get_set_ne, hne]
  · by_cases hsy : fail .syncFile = true
    · refine ⟨?_, ?_, ?_⟩ <;>
        simp [performFileCopy, errResult, hsrc, hcreate, hcp, hsy,
          Sys.writeFile, Sys.removeFile, FS.get_del_self, FS.get_del_ne,
          FS.get_set_ne, hne]
    · by_cases hcl : fail .closeFile = true
      · refine ⟨?_, ?_, ?_⟩ <;>
          simp [performFileCopy, errResult, hsrc, hcreate, hcp, hsy, hcl,
            Sys.writeFile, Sys.removeFile, FS.get_del_self, FS.get_del_ne,
            FS.get_set_ne, hne]
      · have hrn : fail .renameFile = true := by
          rcases hfail with h | h | h | h
          · exact absurd h hcp
          · exact absurd h hsy
          · exact absurd h hcl
          · exact h
        refine ⟨?_, ?_, ?_⟩ <;>
          simp [performFileCopy, errResult, hsrc, hcreate, hcp, hsy, hcl, hrn,
            Sys.writeFile, Sys.removeFile, FS.get_del_self, FS.get_del_ne,
            FS.get_set_ne, hne]

/-- Witness for C1: a copy-step failure on a concrete one-file filesystem. -/
theorem performFileCopy_failure_cleanup_witness :
    errResult (performFileCopy (fun s => decide (s = CopyStep.copyData)) "/src"
        "/out/dst" ⟨[("/src", ⟨[1, 2, 3], 493⟩)], []⟩).1 = true ∧
      (performFileCopy (fun s => decide (s = CopyStep.copyData)) "/src"
          "/out/dst" ⟨[("/src", ⟨[1, 2, 3], 493⟩)], []⟩).2.fs.get
          ("/out/dst" ++ tempFileSuffix) = none ∧
      (performFileCopy (fun s => decide (s = CopyStep.copyData)) "/src"
          "/out/dst" ⟨[("/src", ⟨[1, 2, 3], 493⟩)], []⟩).2.fs.get "/out/dst"
        = (⟨[("/src", ⟨[1, 2, 3], 493⟩)], []⟩ : Sys).fs.get "/out/dst" :=
  performFileCopy_failure_cleanup (fun s => decide (s = CopyStep.copyData))
    "/src" "/out/dst" ⟨[("/src", ⟨[1, 2, 3], 493⟩)], []⟩ ⟨[1, 2, 3], 493⟩
    (by decide) (by decide) (Or.inl (by decide))

/-- C10: a fully successful `performFileCopy` starting with no stale
temporary file leaves the destination with the source's bytes but permission
mode `0600` (decimal 384), whatever the source file's mode was — the source's
permission bits are not carried over to the published copy. -/
theorem performFileCopy_mode_spec (fail : CopyStep → Bool)
    (source destination : String) (sys : Sys) (srcFile : File)
    (hsrc : sys.fs.get source = some srcFile)
    (htmp : sys.fs.get (destination ++ tempFileSuffix) = none)
    (hok : ∀ s, fail s = false) :
    (performFileCopy fail source destination sys).1 = .ok () ∧
      (performFileCopy fail source destination sys).2.fs.get destination
        = some ⟨srcFile.content, 0o600⟩ := by
  constructor <;>
    simp [performFileCopy, hsrc, htmp, hok, Sys.writeFile, Sys.renameFile,
      FS.get_set_self]

/-- Witness for C10: a successful copy of a mode-`0755` (decimal 493) source
yields a mode-`0600` destination. -/
theorem performFileCopy_mode_spec_witness :
    (performFileCopy (fun _ => false) "/src" "/out/dst"
        ⟨[("/src", ⟨[9, 9], 493⟩)], []⟩).1 = .ok () ∧
      (performFileCopy (fun _ => false) "/src" "/out/dst"
          ⟨[("/src", ⟨[9, 9], 493⟩)], []⟩).2.fs.get "/out/dst"
        = some ⟨[9, 9], 0o600⟩ :=
  performFileCopy_mode_spec (fun _ => false) "/src" "/out/dst"
    ⟨[("/src", ⟨[9, 9], 493⟩)], []⟩ ⟨[9, 9], 493⟩ (by decide) (by decide)
    (fun _ => rfl)

theorem performFileCopy_success_aux (fail : CopyStep → Bool)
    (source destination : String) (sys : Sys) (srcFile : File)
    (hsrc : sys.fs.get source = some srcFile)
    (htmp : sys.fs.get (destination ++ tempFileSuffix) = none)
    (hok : ∀ s, fail s = false) :
    (performFileCopy fail source destination sys).1 = .ok () ∧
      (performFileCopy fail source destination sys).2.fs.get destination
        = some ⟨srcFile.content, 0o600⟩ ∧
      ∀ q, q ≠ destination → q ≠ destination ++ tempFileSuffix →
        (performFileCopy fail source destination sys).2.fs.get q
          = sys.fs.get q := by
  refine ⟨?_, ?_, ?_⟩
  · simp [performFileCopy, hsrc, htmp, hok]
  · simp [performFileCopy, hsrc, htmp, hok, Sys.writeFile, Sys.renameFile,
      FS.get_set_self]
  · intro q hq1 hq2
    simp [performFileCopy, hsrc, htmp, hok, Sys.writeFile, Sys.renameFile,
      FS.get_set_self, FS.get_set_ne, FS.get_del_ne, hq1, hq2]

/-- C2: a successful non-dry-run publish of a source file places a file
byte-identical to the source (hence of exactly the source's size) at the path
obtained by joining the resolved output directory with
`{name}-v{version}{platform-extension}`, and leaves the source file itself
untouched. -/
theorem copyBinaryToDestination_roundtrip (env : Env) (opts : BuildOptions)
    (name version sourceBinary : String) (sys : Sys) (srcFile : File)
    (hdry : opts.dryRun = false)
    (hok : ∀ s, env.copyFail s = false)
    (hsrc : sys.fs.get sourceBinary = some srcFile)
    (htmp : sys.fs.get (destinationPath env opts name version ++ tempFileSuffix)
      = none)
    (hne1 : sourceBinary ≠ destinationPath env opts name version)
    (hne2 : sourceBinary
      ≠ destinationPath env opts name version ++ tempFileSuffix) :
    (copyBinaryToDestination env opts name version sourceBinary sys).1
        = .ok () ∧
      (copyBinaryToDestination env opts name version sourceBinary sys).2.fs.get
          (destinationPath env opts name version)
        = some ⟨srcFile.content, 0o600⟩ ∧
      (copyBinaryToDestination env opts name version sourceBinary sys).2.fs.get
          sourceBinary = some srcFile := by
  obtain ⟨h1, h2, h3⟩ := performFileCopy_success_aux env.copyFail sourceBinary
    (destinationPath env opts name version)
    (Sys.log sys (Event.mkdirAll
      (env.abs (if opts.outputDir = "" then releaseTargetDir else opts.outputDir))))
    srcFile hsrc htmp hok
  unfold copyBinaryToDestination
  simp only [hdry, Bool.false_eq_true, if_false]
  rcases hpc : performFileCopy env.copyFail sourceBinary
      (destinationPath env opts name version)
      (Sys.log sys (Event.mkdirAll
        (env.abs (if opts.outputDir = "" then releaseTargetDir else opts.outputDir))))
    with ⟨r, sys2⟩
  rw [hpc] at h1 h2 h3
  simp only at h1 h2 h3
  subst h1
  simp only []
  rw [h2]
  refine ⟨rfl, h2, ?_⟩
  exact (h3 sourceBinary hne1 hne2).trans hsrc

/-- Witness for C2: publishing a three-byte source into `target/release`. -/
theorem copyBinaryToDestination_roundtrip_witness :
    (copyBinaryToDestination envDry optsDefault "clicker" "1.2.3"
        "/proj/target/release/clicker"
        ⟨[("/proj/target/release/clicker", ⟨[1, 2, 3], 493⟩)], []⟩).1
        = .ok () ∧
      (copyBinaryToDestination envDry optsDefault "clicker" "1.2.3"
          "/proj/target/release/clicker"
          ⟨[("/proj/target/release/clicker", ⟨[1, 2, 3], 493⟩)], []⟩).2.fs.get
          (destinationPath envDry optsDefault "clicker" "1.2.3")
        = some ⟨[1, 2, 3], 0o600⟩ ∧
      (copyBinaryToDestination envDry optsDefault "clicker" "1.2.3"
          "/proj/target/release/clicker"
          ⟨[("/proj/target/release/clicker", ⟨[1, 2, 3], 493⟩)], []⟩).2.fs.get
          "/proj/target/release/clicker" = some ⟨[1, 2, 3], 493⟩ :=
  copyBinaryToDestination_roundtrip envDry optsDefault "clicker" "1.2.3"
    "/proj/target/release/clicker"
    ⟨[("/proj/target/release/clicker", ⟨[1, 2, 3], 493⟩)], []⟩
    ⟨[1, 2, 3], 493⟩ rfl (fun _ => rfl) (by decide) (by decide) (by decide)
    (by decide)

/-- C7: in quiet mode both subprocess streams are captured into one
buffer; when the subprocess fails, the captured combined output is written to
standard error exactly once before the error is returned, and when it
succeeds nothing is written to standard error. -/
theorem runCargoCommand_quiet_spec (env : Env) (opts : BuildOptions)
    (cargoBin : String) (args : List String) (fs : FS)
    (hv : opts.verbose = false) :
    ((env.cargoRun args).exitOk = false →
      (runCargoCommand env opts cargoBin args ⟨fs, []⟩).1
          = .error "cargo command failed" ∧
        (runCargoCommand env opts cargoBin args ⟨fs, []⟩).2.events.filter
            Event.isStderrWrite
          = [.stderrWrite (env.cargoRun args).combinedOutput]) ∧
      ((env.cargoRun args).exitOk = true →
        (runCargoCommand env opts cargoBin args ⟨fs, []⟩).1 = .ok () ∧
          (runCargoCommand env opts cargoBin args ⟨fs, []⟩).2.events.filter
            Event.isStderrWrite = []) := by
  constructor
  · intro hx
    constructor <;>
      simp [runCargoCommand, hv, hx, Sys.log, Event.isStderrWrite, List.filter]
  · intro hx
    constructor <;>
      simp [runCargoCommand, hv, hx, Sys.log, Event.isStderrWrite, List.filter]

/-- Witness for C7: one failing and one succeeding quiet-mode invocation. -/
theorem runCargoCommand_quiet_spec_witness :
    ((runCargoCommand envQuietFail optsDefault "cargo" ["build", "--release"]
          ⟨[], []⟩).1 = .error "cargo command failed" ∧
      (runCargoCommand envQuietFail optsDefault "cargo" ["build", "--release"]
          ⟨[], []⟩).2.events.filter Event.isStderrWrite
        = [.stderrWrite "build failed output"]) ∧
      ((runCargoCommand envQuietOk optsDefault "cargo" ["build", "--release"]
          ⟨[], []⟩).1 = .ok () ∧
        (runCargoCommand envQuietOk optsDefault "cargo" ["build", "--release"]
          ⟨[], []⟩).2.events.filter Event.isStderrWrite = []) := by
  constructor
  · exact (runCargoCommand_quiet_spec envQuietFail optsDefault "cargo"
      ["build", "--release"] [] rfl).1 rfl
  · exact (runCargoCommand_quiet_spec envQuietOk optsDefault "cargo"
      ["build", "--release"] [] rfl).2 rfl

/-- C5: when the manifest's version string is non-empty yet fails version
validation — that is, it contains an unsafe character, whether one of the
reserved filesystem characters or a control character (code point below 32 or
equal to 127) — and the earlier stages pass, the pipeline stops with the
version-validation error while the machine state is completely untouched: no
subprocess has been spawned — the `cargo --version` query included — and no
file or directory has been created or modified. -/
theorem execute_unsafeVersion_spec (env : Env) (opts : BuildOptions)
    (sys : Sys) (projectDir : List String) (config : PackageInfo) (e : String)
    (hroot : locateProjectRoot env.stat env.cwd = some projectDir)
    (hcfg : env.readConfig (joinDir projectDir cargoTomlFilename) = .ok config)
    (hname : config.name ≠ "") (hvne : config.version ≠ "")
    (hvv : validateVersionString config.version = .error e) :
    execute env opts sys = (.error ("version validation: " ++ e), sys) := by
  have hval : configValidate config = .ok () := by
    simp [configValidate, hname, hvne]
  simp [execute, hroot, hcfg, hval, hvv]

/-- Witness for C5: version `1.2.3/evil` (reserved character) and version
`1.2\x01.3` (control character) each abort with the untouched state. -/
theorem execute_unsafeVersion_spec_witness :
    (execute envProj optsDefault ⟨[], []⟩
      = (.error
          "version validation: version contains forbidden characters: 1.2.3/evil",
        ⟨[], []⟩)) ∧
      (execute envCtl optsDefault ⟨[], []⟩
        = (.error
            "version validation: version contains control character: 1.2\x01.3",
          ⟨[], []⟩)) :=
  ⟨execute_unsafeVersion_spec envProj optsDefault ⟨[], []⟩ ["proj"]
      ⟨"clicker", "1.2.3/evil"⟩
      "version contains forbidden characters: 1.2.3/evil"
      (by decide) rfl (by decide) (by decide) rfl,
    execute_unsafeVersion_spec envCtl optsDefault ⟨[], []⟩ ["proj"]
      ⟨"clicker", "1.2\x01.3"⟩
      "version contains control character: 1.2\x01.3"
      (by decide) rfl (by decide) (by decide) rfl⟩

theorem validateCargoBinary_snd_aux (env : Env) (cargo : String) (sys : Sys) :
    (validateCargoBinary env cargo sys).2
      = sys.log (.spawn cargo ["--version"]) := by
  unfold validateCargoBinary
  cases env.cargoVersionOut cargo with
  | error e => rfl
  | ok out => by_cases h : out.startsWith "cargo " = true <;> simp [h]

theorem runBuildPipeline_dryRun_snd_aux (env : Env) (opts : BuildOptions)
    (config : PackageInfo) (projectDir : List String) (cargoBin : String)
    (sys : Sys) (hdry : opts.dryRun = true) :
    (runBuildPipeline env opts config projectDir cargoBin sys).2
      = sys.log (.chdir (pathStr projectDir)) := by
  have hclean : ∀ s, executeCargoClean env opts cargoBin s = (.ok (), s) := by
    intro s
    simp [executeCargoClean, hdry]
  have hbuild : ∀ s, executeCargoBuild env opts cargoBin s = (.ok (), s) := by
    intro s
    simp [executeCargoBuild, hdry]
  have hcopy : ∀ n v b s,
      copyBinaryToDestination env opts n v b s = (.ok (), s) := by
    intro n v b s
    simp [copyBinaryToDestination, hdry]
  unfold runBuildPipeline
  cases hcl : opts.clean <;>
    cases hloc : locateBuiltBinary env.stat env.goos projectDir config.name <;>
      simp [hcl, hloc, hclean, hbuild, hcopy]

/-- C6: with dry-run enabled no stage of the pipeline mutates the
filesystem: the final filesystem equals the initial one, and the event trace
contains no directory creation, file write, removal, or rename, and no spawn
of the clean or build subcommand. -/
theorem execute_dryRun_spec (env : Env) (opts : BuildOptions) (fs : FS)
    (hdry : opts.dryRun = true) :
    (execute env opts ⟨fs, []⟩).2.fs = fs ∧
      (execute env opts ⟨fs, []⟩).2.events.all
        (fun e => !Event.mutatesFs e && !Event.isCleanOrBuildSpawn e) = true := by
  cases hroot : locateProjectRoot env.stat env.cwd with
  | none => simp [execute, hroot]
  | some projectDir =>
    cases hcfg : env.readConfig (joinDir projectDir cargoTomlFilename) with
    | error e => simp [execute, hroot, hcfg]
    | ok config =>
      cases hval : configValidate config with
      | error e => simp [execute, hroot, hcfg, hval]
      | ok u =>
        cases hvv : validateVersionString config.version with
        | error e => simp [execute, hroot, hcfg, hval, hvv]
        | ok u2 =>
          cases hres : resolveCargoBinary env opts.cargoPath with
          | error e => simp [execute, hroot, hcfg, hval, hvv, hres]
          | ok cargoBin =>
            rcases hvc : validateCargoBinary env cargoBin ⟨fs, []⟩ with ⟨r1, sysa⟩
            have hsysa : sysa
                = Sys.log ⟨fs, []⟩ (.spawn cargoBin ["--version"]) := by
              have haux := validateCargoBinary_snd_aux env cargoBin ⟨fs, []⟩
              rw [hvc] at haux
              exact haux
            subst hsysa
            cases r1 with
            | error e =>
              simp [execute, hroot, hcfg, hval, hvv, hres, hvc, Sys.log,
                Event.mutatesFs, Event.isCleanOrBuildSpawn]
            | ok u3 =>
              rcases hbp : runBuildPipeline env opts config projectDir cargoBin
                  (Sys.log ⟨fs, []⟩ (.spawn cargoBin ["--version"]))
                with ⟨r2, sysb⟩
              have hsysb : sysb
                  = (Sys.log ⟨fs, []⟩ (.spawn cargoBin ["--version"])).log
                    (.chdir (pathStr projectDir)) := by
                have haux := runBuildPipeline_dryRun_snd_aux env opts config
                  projectDir cargoBin
                  (Sys.log ⟨fs, []⟩ (.spawn cargoBin ["--version"])) hdry
                rw [hbp] at haux
                exact haux
              subst hsysb
              simp only [Sys.log, List.nil_append, List.append_assoc] at hbp
              cases r2 with
              | error e =>
                simp [execute, hroot, hcfg, hval, hvv, hres, hvc, hbp, Sys.log,
                  Event.mutatesFs, Event.isCleanOrBuildSpawn]
              | ok u4 =>
                simp [execute, hroot, hcfg, hval, hvv, hres, hvc, hbp, Sys.log,
                  Event.mutatesFs, Event.isCleanOrBuildSpawn]

/-- Witness for C6: a dry run with clean requested on an empty filesystem. -/
theorem execute_dryRun_spec_witness :
    (execute envDry optsDry ⟨[], []⟩).2.fs = ([] : FS) ∧
      (execute envDry optsDry ⟨[], []⟩).2.events.all
        (fun e => !Event.mutatesFs e && !Event.isCleanOrBuildSpawn e) = true :=
  execute_dryRun_spec envDry optsDry [] rfl

end RacBuild
